import Mathlib

/-! Shallow embedding of the autocorrection engine of the sdlc_xmalab
repository (src/samtools.py), covering the crop-window arithmetic, the
candidate-selection loop, the adaptive threshold, the search_area
normalisation in load_project, and the control flow of
autocorrect_trial / autocorrect_video / autocorrect_frame.

Coordinates are modelled as exact rationals.  The source compares
math.sqrt of squared coordinate offsets; the square root is strictly
monotone on nonnegative reals, so the loop here compares squared
distances, with the initial bound 1000 becoming 1000000 (the bridge
lemmas sqrt_compare_bridge and sqrt_bound_bridge below justify this).
The image-processing calls into OpenCV are external to the repository;
the per-frame blob-detection stage is abstracted as a function from
the predicted point to the list of detected minimal-enclosing-circle
centroids, and the two external primitives whose input/output contract
the claims mention (cv2.threshold with THRESH_BINARY_INV, and NumPy
slice extraction) are modelled from their documented semantics. -/

/-- Python int() applied to an exact rational: truncation toward zero.
samtools.py lines 111 and 260-263 apply int() to float expressions. -/
def pyIntTrunc (q : ℚ) : ℤ := if 0 ≤ q then ⌊q⌋ else ⌈q⌉

/-- A 2D point with exact rational coordinates. -/
structure Pt where
  x : ℚ
  y : ℚ
  deriving DecidableEq, Repr

/-- Squared Euclidean distance between the predicted point and a detected
centroid.  samtools.py line 301 computes math.sqrt of exactly this
quantity; comparisons of the square roots and of the squares agree. -/
def distSq (pred c : Pt) : ℚ := (pred.x - c.x) ^ 2 + (pred.y - c.y) ^ 2

/-- The candidate-selection loop of autocorrect_frame, samtools.py lines
296-305: running best (squared) distance, running best index with the
sentinel -1, and the enumerate counter.  The detected_centers dict of
line 302 does not feed the decision and is omitted. -/
def select_loop (pred : Pt) : List Pt → ℚ → ℤ → ℕ → ℤ
  | [], _, best, _ => best
  | c :: rest, dist, best, i =>
      if distSq pred c < dist then select_loop pred rest (distSq pred c) (i : ℤ) (i + 1)
      else select_loop pred rest dist best (i + 1)

/-- best_index as computed by autocorrect_frame: the loop starts with
dist = 1000 (squared: 1000000) and best_index = -1 (lines 296-297). -/
def best_index (pred : Pt) (cands : List Pt) : ℤ :=
  select_loop pred cands 1000000 (-1) 0

/-- Write-back step of autocorrect_frame (samtools.py lines 308-311): if
best_index >= 0 the minimal-enclosing-circle centroid of the selected
contour replaces the predicted point, otherwise the point is unchanged. -/
def autocorrect_cell (pred : Pt) (cands : List Pt) : Pt :=
  if 0 ≤ best_index pred cands then cands.getD (best_index pred cands).toNat pred
  else pred

/-- Recursive reformulation of the selection loop, used to reason about
select_loop: returns the index of the first candidate attaining the
least squared distance, provided that distance is below the bound. -/
def choose_best (pred : Pt) : List Pt → ℚ → Option ℕ
  | [], _ => none
  | c :: rest, bound =>
      if distSq pred c < bound then
        match choose_best pred rest (distSq pred c) with
        | none => some 0
        | some j => some (j + 1)
      else
        match choose_best pred rest bound with
        | none => none
        | some j => some (j + 1)

/-- The coordinate table: frame index, marker (bodypart) name and camera
name determine the stored (X, Y) pair.  Models the pandas frame csv with
columns part_cam_X and part_cam_Y accessed by csv.loc. -/
def Table := ℕ → String → String → Pt

/-- Writing one (frame, marker, camera) cell, both X and Y components
(samtools.py lines 310-311). -/
def update_cell (tbl : Table) (fi : ℕ) (part cam : String) (v : Pt) : Table :=
  fun fi2 part2 cam2 =>
    if fi2 = fi ∧ part2 = part ∧ cam2 = cam then v else tbl fi2 part2 cam2

/-- The marker loop of autocorrect_frame, samtools.py lines 256-312, in
the case every csv.loc row access succeeds (the frame row is present):
for each marker read the predicted point, run the image pipeline over
the crop (abstracted by det, which maps the predicted point to the list
of detected minimal-enclosing-circle centroids), run the selection loop
and write the result back.  The fallible full function, with the
bodyparts lookup and the row access, is autocorrect_frame below. -/
def autocorrect_markers (det : Pt → List Pt) (cam : String) (fi : ℕ) :
    List String → Table → Table
  | [], tbl => tbl
  | part :: rest, tbl =>
      autocorrect_markers det cam fi rest
        (update_cell tbl fi part cam
          (autocorrect_cell (tbl fi part cam) (det (tbl fi part cam))))

/-- Crop-window bounds computed by autocorrect_frame, samtools.py lines
260-263: Python int() truncation of value - search_area + 0.5 and
value + search_area + 0.5 in each axis. -/
structure CropWindow where
  xs : ℤ
  ys : ℤ
  xe : ℤ
  ye : ℤ
  deriving DecidableEq, Repr

/-- The four bounds x_start, y_start, x_end, y_end of the crop window. -/
def crop_window (x y sa : ℚ) : CropWindow :=
  ⟨pyIntTrunc (x - sa + 1/2), pyIntTrunc (y - sa + 1/2),
   pyIntTrunc (x + sa + 1/2), pyIntTrunc (y + sa + 1/2)⟩

/-- Python/NumPy slice bound normalisation on an axis of extent n: a
negative bound first counts from the far end (b + n), then the bound is
clamped to [0, n].  Models frame[y_start:y_end, x_start:x_end] on
samtools.py line 265, per the Python slicing semantics. -/
def py_slice_bound (n : ℕ) (b : ℤ) : ℕ :=
  if b < 0 then (b + n).toNat else min b.toNat n

/-- Number of index positions selected by the Python slice [s:e] on an
axis of extent n (zero when the normalised start is at or past the
normalised end). -/
def py_slice_len (n : ℕ) (s e : ℤ) : ℕ :=
  py_slice_bound n e - py_slice_bound n s

/-- Number of integer positions in the intersection of the half-open
window [s, e) with the frame axis [0, n). -/
def inter_len (n : ℕ) (s e : ℤ) : ℕ :=
  (min e (n : ℤ) - max s 0).toNat

/-- Adaptive threshold computed by autocorrect_frame, samtools.py line
286: thres = 0.5 * min_val + 0.5 * mean(subimage) + threshold * 0.01 * 255. -/
def adaptive_thresh (min_val mean_val threshold : ℚ) : ℚ :=
  1/2 * min_val + 1/2 * mean_val + threshold * (1/100) * 255

/-- cv2.threshold with THRESH_BINARY_INV and maxval 255 (samtools.py line
287), per the documented OpenCV semantics: a pixel strictly above the
threshold maps to 0, any other pixel (including one exactly equal to the
threshold) maps to maxval = 255. -/
def thresh_binary_inv (thres : ℚ) (pix : ℕ) : ℕ :=
  if thres < (pix : ℚ) then 0 else 255

/-- search_area normalisation in load_project, samtools.py line 111 (the
identical line appears in src/sdlc_xmalab/sdlc_xmalab.py line 113):
int(search_area + 0.5) if search_area >= 10 else 10. -/
def load_project_search_area (sa : ℚ) : ℤ :=
  if 10 ≤ sa then pyIntTrunc (sa + 1/2) else 10

/-- Error values raised by the autocorrection engine: Python
FileNotFoundError, IOError, FileExistsError, pandas KeyError and the
OpenCV cv2.error, each with its message. -/
inductive AcError where
  | fileNotFound (msg : String)
  | ioError (msg : String)
  | fileExists (msg : String)
  | keyError (msg : String)
  | cv2Error (msg : String)
  deriving DecidableEq, Repr

/-- A camera video as the engine observes it (samtools.py lines 236-248):
whether cv2.VideoCapture opened it, the container frame count, and the
result of the sequential read of each frame index (none models ret ==
False; a delivered frame is abstracted by its induced blob detector,
mapping a predicted point to the centroids found in its crop). -/
structure Video where
  isOpened : Bool
  frameCount : ℕ
  reads : ℕ → Option (Pt → List Pt)

/-- Path of a camera video inside a trial folder (samtools.py line 235). -/
def video_path (ndp trial cam : String) : String :=
  ndp ++ ("/") ++ trial ++ ("/") ++ trial ++ ("_") ++ cam ++ (".avi")

/-- Message of the FileNotFoundError raised when a video does not open
(samtools.py line 238; the apostrophe of the source text is omitted). -/
def video_missing_msg (ndp trial cam : String) : String :=
  ("Couldnt find a video at file path: ") ++ video_path ndp trial cam

/-- Message of the IOError raised when a frame read fails (line 248). -/
def frame_read_error_msg : String := "Error reading video frame"

/-- Message of the FileNotFoundError raised on an empty trials directory
(samtools.py line 205). -/
def empty_trials_msg (wd : String) : String :=
  ("Empty trials directory found. Please put trials to be analyzed after training into the ")
    ++ wd ++ ("/trials folder")

/-- Message of the FileNotFoundError raised when the predicted points
file is missing (samtools.py line 221). -/
def points_file_msg (iter : ℕ) (trial : String) : String :=
  ("Could not find predicted 2D points file. Please check the it")
    ++ toString iter ++ (" folder for trial ") ++ trial

/-- The trial folder path passed to get_bodyparts_from_xma by
autocorrect_frame (samtools.py line 255). -/
def trial_path (ndp trial : String) : String := ndp ++ ("/") ++ trial

/-- Message of the FileExistsError raised by get_bodyparts_from_xma when
the trial folder holds more than one top-level CSV file (samtools.py
line 360). -/
def multiple_csv_msg (ndp trial : String) : String :=
  ("Found more than 1 CSV file for trial: ") ++ trial_path ndp trial

/-- Message of the FileNotFoundError raised by get_bodyparts_from_xma
when the trial folder holds no top-level CSV file (samtools.py line 362;
the apostrophe of the source text is omitted). -/
def trial_csv_missing_msg (ndp trial : String) : String :=
  ("Couldnt find a CSV file for trial: ") ++ trial_path ndp trial

/-- Message of the OpenCV assertion failure on an empty source image. -/
def cv2_empty_src_msg : String :=
  "OpenCV assertion failed: !_src.empty() in function GaussianBlur"

/-- Modelled from the documented OpenCV contract: cv2.GaussianBlur, the
first operation filter_image applies to the crop (samtools.py lines 267
and 318), rejects an empty source image with an assertion error.
autocorrect_frame extracts the crop at line 265 and passes it straight
in, with no emptiness or size guard anywhere between the slice and the
filtering calls, so the crop shape alone decides whether the filtering
stage starts or aborts. -/
def filter_image_on_crop (rows cols : ℕ) : Except AcError (ℕ × ℕ) :=
  if rows = 0 ∨ cols = 0 then Except.error (AcError.cv2Error cv2_empty_src_msg)
  else Except.ok (rows, cols)

/-- One trial folder as autocorrect_trial observes it: its name, the
number of top-level CSV files directly inside trials/<name>/ (what
get_bodyparts_from_xma lists at samtools.py line 358 - the predicted
points file lives deeper, in the it<N> subfolder), the marker names
parsed from that CSV when it is unique, the predicted-points table when
its file exists, the number of frame rows that table holds, and the two
camera videos. -/
structure TrialData where
  name : String
  trialCsvCount : ℕ
  parts : List String
  pointsCsv : Option Table
  rowCount : ℕ
  cam1 : Video
  cam2 : Video

/-- get_bodyparts_from_xma, samtools.py lines 355-370, on the trial
folder: FileExistsError when more than one top-level CSV file exists,
FileNotFoundError when none does, otherwise the marker names parsed
from the single CSV (the parsing and first-seen deduplication of lines
363-370 is abstracted by the stored parts list). -/
def get_bodyparts_from_xma (ndp : String) (t : TrialData) :
    Except AcError (List String) :=
  if 1 < t.trialCsvCount then
    Except.error (AcError.fileExists (multiple_csv_msg ndp t.name))
  else if t.trialCsvCount = 0 then
    Except.error (AcError.fileNotFound (trial_csv_missing_msg ndp t.name))
  else Except.ok t.parts

/-- The marker loop of autocorrect_frame with the csv.loc row access
(samtools.py lines 256-258): for each marker the predicted point is read
with csv.loc[frame_index, ...], which raises KeyError (whose message is
the missing row label) when the points table has no row for the frame
index; otherwise the marker is processed as in autocorrect_markers. -/
def autocorrect_frame_markers (det : Pt → List Pt) (cam : String) (fi rc : ℕ) :
    List String → Table → Except AcError Table
  | [], tbl => Except.ok tbl
  | part :: rest, tbl =>
      if fi < rc then
        autocorrect_frame_markers det cam fi rc rest
          (update_cell tbl fi part cam
            (autocorrect_cell (tbl fi part cam) (det (tbl fi part cam))))
      else Except.error (AcError.keyError (toString fi))

/-- autocorrect_frame, samtools.py lines 252-312: look the marker names
up with get_bodyparts_from_xma (line 255, fallible), then run the
marker loop, whose csv.loc reads require the frame row to be present. -/
def autocorrect_frame (ndp : String) (t : TrialData) (det : Pt → List Pt)
    (cam : String) (fi : ℕ) (tbl : Table) : Except AcError Table :=
  match get_bodyparts_from_xma ndp t with
  | Except.error e => Except.error e
  | Except.ok parts => autocorrect_frame_markers det cam fi t.rowCount parts tbl

/-- The frame loop of autocorrect_video (samtools.py lines 243-249): read
frameCount frames sequentially, raising IOError when a read fails, and
run autocorrect_frame on each delivered frame, propagating its errors. -/
def autocorrect_video_loop (ndp : String) (t : TrialData)
    (reads : ℕ → Option (Pt → List Pt)) (cam : String) :
    ℕ → ℕ → Table → Except AcError Table
  | 0, _, tbl => Except.ok tbl
  | k + 1, fi, tbl =>
      match reads fi with
      | none => Except.error (AcError.ioError frame_read_error_msg)
      | some det =>
          match autocorrect_frame ndp t det cam fi tbl with
          | Except.error e => Except.error e
          | Except.ok tbl2 => autocorrect_video_loop ndp t reads cam k (fi + 1) tbl2

/-- autocorrect_video, samtools.py lines 232-250: open the camera video,
raise FileNotFoundError naming the path when it does not open, then run
the frame loop over the whole frame count. -/
def autocorrect_video (cam : String) (t : TrialData) (v : Video)
    (ndp : String) (tbl : Table) : Except AcError Table :=
  if v.isOpened then autocorrect_video_loop ndp t v.reads cam v.frameCount 0 tbl
  else Except.error (AcError.fileNotFound (video_missing_msg ndp t.name cam))

/-- The per-trial loop of autocorrect_trial (samtools.py lines 216-230):
read the predicted points file (FileNotFoundError naming the expected
location when missing), then run autocorrect_video on cam1 and cam2 in
order, threading the table; an uncaught error aborts everything. -/
def autocorrect_trial_loop (ndp : String) (iter : ℕ) :
    List TrialData → Except AcError (List Table)
  | [] => Except.ok []
  | t :: rest =>
      match t.pointsCsv with
      | none => Except.error (AcError.fileNotFound (points_file_msg iter t.name))
      | some csv =>
          match autocorrect_video ("cam1") t t.cam1 ndp csv with
          | Except.error e => Except.error e
          | Except.ok csv1 =>
              match autocorrect_video ("cam2") t t.cam2 ndp csv1 with
              | Except.error e => Except.error e
              | Except.ok csv2 =>
                  match autocorrect_trial_loop ndp iter rest with
                  | Except.error e => Except.error e
                  | Except.ok tbls => Except.ok (csv2 :: tbls)

/-- autocorrect_trial, samtools.py lines 198-230: error on an empty trials
directory, otherwise process every trial; returns the corrected tables. -/
def autocorrect_trial (ndp : String) (iter : ℕ) (trials : List TrialData) :
    Except AcError (List Table) :=
  if trials.length = 0 then
    Except.error (AcError.fileNotFound (empty_trials_msg ndp))
  else autocorrect_trial_loop ndp iter trials

/-- A concrete trial used in witnesses: one marker, one top-level trial
CSV, a one-row points table, two openable zero-frame videos. -/
def one_marker_trial : TrialData :=
  { name := ("t1"), trialCsvCount := 1, parts := [("m1")], pointsCsv := none,
    rowCount := 1, cam1 := ⟨true, 0, fun _ => none⟩,
    cam2 := ⟨true, 0, fun _ => none⟩ }

lemma select_loop_eq_choose_best (pred : Pt) :
    ∀ (l : List Pt) (dist : ℚ) (best : ℤ) (i : ℕ),
      select_loop pred l dist best i =
        (match choose_best pred l dist with
         | none => best
         | some j => ((i : ℤ) + (j : ℤ))) := by
  intro l
  induction l with
  | nil => intro dist best i; simp [select_loop, choose_best]
  | cons c rest ih =>
      intro dist best i
      by_cases h : distSq pred c < dist
      · simp only [select_loop, choose_best, if_pos h, ih]
        cases hcb : choose_best pred rest (distSq pred c) with
        | none => simp
        | some j => push_cast; ring
      · simp only [select_loop, choose_best, if_neg h, ih]
        cases hcb : choose_best pred rest dist with
        | none => simp
        | some j => push_cast; ring

lemma choose_best_none_iff (pred : Pt) :
    ∀ (l : List Pt) (bound : ℚ),
      choose_best pred l bound = none ↔ ∀ c ∈ l, bound ≤ distSq pred c := by
  intro l
  induction l with
  | nil => intro bound; simp [choose_best]
  | cons c rest ih =>
      intro bound
      by_cases h : distSq pred c < bound
      · simp only [choose_best, if_pos h]
        cases hcb : choose_best pred rest (distSq pred c) with
        | none =>
            simp only [List.mem_cons]
            constructor
            · intro hfalse; cases hfalse
            · intro hall; exact absurd (hall c (Or.inl rfl)) (not_le.mpr h)
        | some j =>
            simp only [List.mem_cons]
            constructor
            · intro hfalse; cases hfalse
            · intro hall; exact absurd (hall c (Or.inl rfl)) (not_le.mpr h)
      · simp only [choose_best, if_neg h]
        cases hcb : choose_best pred rest bound with
        | none =>
            simp only [List.mem_cons]
            constructor
            · intro _ c2 hc2
              rcases hc2 with rfl | hc2
              · exact le_of_not_lt h
              · exact ((ih bound).mp hcb) c2 hc2
            · intro _; trivial
        | some j =>
            simp only [List.mem_cons]
            constructor
            · intro hfalse; cases hfalse
            · intro hall
              have : choose_best pred rest bound = none :=
                (ih bound).mpr (fun c2 hc2 => hall c2 (Or.inr hc2))
              rw [this] at hcb; cases hcb

lemma choose_best_spec (pred : Pt) :
    ∀ (l : List Pt) (bound : ℚ) (j : ℕ),
      choose_best pred l bound = some j →
        ∃ h : j < l.length,
          distSq pred (l.get ⟨j, h⟩) < bound ∧
          (∀ k (hk : k < l.length),
            distSq pred (l.get ⟨j, h⟩) ≤ distSq pred (l.get ⟨k, hk⟩)) ∧
          (∀ k (hk : k < l.length), k < j →
            distSq pred (l.get ⟨j, h⟩) < distSq pred (l.get ⟨k, hk⟩)) := by
  intro l
  induction l with
  | nil => intro bound j h; cases h
  | cons c rest ih =>
      intro bound j hj
      by_cases h : distSq pred c < bound
      · simp only [choose_best, if_pos h] at hj
        cases hcb : choose_best pred rest (distSq pred c) with
        | none =>
            rw [hcb] at hj
            cases hj
            refine ⟨Nat.succ_pos _, h, ?_, ?_⟩
            · intro k hk
              match k with
              | 0 => exact le_refl _
              | k + 1 =>
                  have hk2 : k < rest.length := Nat.lt_of_succ_lt_succ hk
                  exact ((choose_best_none_iff pred rest (distSq pred c)).mp hcb)
                    (rest.get ⟨k, hk2⟩) (rest.get_mem k hk2)
            · intro k hk hk0; cases hk0
        | some j2 =>
            rw [hcb] at hj
            cases hj
            obtain ⟨hlen, hlt, hmin, hfirst⟩ := ih (distSq pred c) j2 hcb
            refine ⟨Nat.succ_lt_succ hlen, lt_trans hlt h, ?_, ?_⟩
            · intro k hk
              match k with
              | 0 => exact le_of_lt hlt
              | k + 1 =>
                  have hk2 : k < rest.length := Nat.lt_of_succ_lt_succ hk
                  exact hmin k hk2
            · intro k hk hklt
              match k with
              | 0 => exact hlt
              | k + 1 =>
                  have hk2 : k < rest.length := Nat.lt_of_succ_lt_succ hk
                  exact hfirst k hk2 (Nat.lt_of_succ_lt_succ hklt)
      · simp only [choose_best, if_neg h] at hj
        cases hcb : choose_best pred rest bound with
        | none => rw [hcb] at hj; cases hj
        | some j2 =>
            rw [hcb] at hj
            cases hj
            obtain ⟨hlen, hlt, hmin, hfirst⟩ := ih bound j2 hcb
            have hc : distSq pred (rest.get ⟨j2, hlen⟩) < distSq pred c :=
              lt_of_lt_of_le hlt (le_of_not_lt h)
            refine ⟨Nat.succ_lt_succ hlen, hlt, ?_, ?_⟩
            · intro k hk
              match k with
              | 0 => exact le_of_lt hc
              | k + 1 =>
                  have hk2 : k < rest.length := Nat.lt_of_succ_lt_succ hk
                  exact hmin k hk2
            · intro k hk hklt
              match k with
              | 0 => exact hc
              | k + 1 =>
                  have hk2 : k < rest.length := Nat.lt_of_succ_lt_succ hk
                  exact hfirst k hk2 (Nat.lt_of_succ_lt_succ hklt)

lemma best_index_eq (pred : Pt) (cands : List Pt) :
    best_index pred cands =
      (match choose_best pred cands 1000000 with
       | none => (-1 : ℤ)
       | some j => (j : ℤ)) := by
  have h := select_loop_eq_choose_best pred cands 1000000 (-1) 0
  unfold best_index
  rw [h]
  cases choose_best pred cands 1000000 with
  | none => rfl
  | some j => simp

lemma getD_of_lt (l : List Pt) (d : Pt) :
    ∀ (j : ℕ) (h : j < l.length), l.getD j d = l.get ⟨j, h⟩ := by
  induction l with
  | nil => intro j h; cases h
  | cons c rest ih =>
      intro j h
      match j with
      | 0 => rfl
      | j + 1 => exact ih j (Nat.lt_of_succ_lt_succ h)

lemma autocorrect_cell_of_none (pred : Pt) (cands : List Pt)
    (h : choose_best pred cands 1000000 = none) :
    autocorrect_cell pred cands = pred := by
  unfold autocorrect_cell
  rw [best_index_eq, h]
  norm_num

lemma distSq_nonneg (pred c : Pt) : 0 ≤ distSq pred c := by
  unfold distSq; positivity

/-- Justification of the squared-distance embedding: the source compares
math.sqrt values (samtools.py line 303); square roots of the squared
distances compare exactly as the squared distances do. -/
lemma sqrt_compare_bridge (pred c1 c2 : Pt) :
    Real.sqrt ((distSq pred c1 : ℚ) : ℝ) < Real.sqrt ((distSq pred c2 : ℚ) : ℝ) ↔
      distSq pred c1 < distSq pred c2 := by
  rw [Real.sqrt_lt_sqrt_iff (by exact_mod_cast distSq_nonneg pred c1)]
  exact_mod_cast Iff.rfl

/-- Justification of the initial bound: dist starts at 1000 in the source
(samtools.py line 296); sqrt of the squared distance is below 1000 exactly
when the squared distance is below 1000000. -/
lemma sqrt_bound_bridge (pred c : Pt) :
    Real.sqrt ((distSq pred c : ℚ) : ℝ) < 1000 ↔ distSq pred c < 1000000 := by
  rw [Real.sqrt_lt' (by norm_num)]
  constructor
  · intro h; exact_mod_cast (by norm_num at h; exact_mod_cast h : ((distSq pred c : ℚ) : ℝ) < 1000000)
  · intro h; norm_num; exact_mod_cast h

lemma update_cell_same (tbl : Table) (fi : ℕ) (part cam : String) (v : Pt) :
    update_cell tbl fi part cam v fi part cam = v := by
  simp [update_cell]

lemma update_cell_other_part (tbl : Table) (fi : ℕ) (part cam : String) (v : Pt)
    (fi2 : ℕ) (part2 cam2 : String) (h : part2 ≠ part) :
    update_cell tbl fi part cam v fi2 part2 cam2 = tbl fi2 part2 cam2 := by
  simp [update_cell, h]

lemma autocorrect_markers_not_mem (det : Pt → List Pt) (cam : String) (fi : ℕ) :
    ∀ (parts : List String) (tbl : Table) (fi2 : ℕ) (part2 cam2 : String),
      part2 ∉ parts →
      autocorrect_markers det cam fi parts tbl fi2 part2 cam2 = tbl fi2 part2 cam2 := by
  intro parts
  induction parts with
  | nil => intro tbl fi2 part2 cam2 _; rfl
  | cons p rest ih =>
      intro tbl fi2 part2 cam2 hmem
      have h1 : part2 ≠ p := fun h => hmem (h ▸ List.mem_cons_self p rest)
      have h2 : part2 ∉ rest := fun h => hmem (List.mem_cons_of_mem p h)
      show autocorrect_markers det cam fi rest _ fi2 part2 cam2 = _
      rw [ih _ fi2 part2 cam2 h2]
      exact update_cell_other_part _ _ _ _ _ _ _ _ h1

lemma autocorrect_markers_cell (det : Pt → List Pt) (cam : String) (fi : ℕ) :
    ∀ (parts : List String) (tbl : Table) (part : String),
      parts.Nodup → part ∈ parts →
      autocorrect_markers det cam fi parts tbl fi part cam =
        autocorrect_cell (tbl fi part cam) (det (tbl fi part cam)) := by
  intro parts
  induction parts with
  | nil => intro tbl part _ hmem; cases hmem
  | cons p rest ih =>
      intro tbl part hnd hmem
      have hnotp : p ∉ rest := (List.nodup_cons.mp hnd).1
      have hndr : rest.Nodup := (List.nodup_cons.mp hnd).2
      rcases List.mem_cons.mp hmem with rfl | hmemr
      · show autocorrect_markers det cam fi rest _ fi part cam = _
        rw [autocorrect_markers_not_mem det cam fi rest _ fi part cam hnotp]
        exact update_cell_same _ _ _ _ _
      · have hne : part ≠ p := fun h => hnotp (h ▸ hmemr)
        show autocorrect_markers det cam fi rest _ fi part cam = _
        rw [ih _ part hndr hmemr]
        rw [update_cell_other_part _ _ _ _ _ _ _ _ hne]

lemma get_bodyparts_ok_parts (ndp : String) (t : TrialData) (ps : List String)
    (h : get_bodyparts_from_xma ndp t = Except.ok ps) : ps = t.parts := by
  unfold get_bodyparts_from_xma at h
  by_cases h1 : 1 < t.trialCsvCount
  · rw [if_pos h1] at h; cases h
  · rw [if_neg h1] at h
    by_cases h0 : t.trialCsvCount = 0
    · rw [if_pos h0] at h; cases h
    · rw [if_neg h0] at h
      simp only [Except.ok.injEq] at h
      exact h.symm

lemma markers_ok_result (det : Pt → List Pt) (cam : String) (fi rc : ℕ) :
    ∀ (parts : List String) (tbl tbl2 : Table),
      autocorrect_frame_markers det cam fi rc parts tbl = Except.ok tbl2 →
      tbl2 = autocorrect_markers det cam fi parts tbl := by
  intro parts
  induction parts with
  | nil =>
      intro tbl tbl2 h
      simp only [autocorrect_frame_markers, Except.ok.injEq] at h
      exact h.symm
  | cons part rest ih =>
      intro tbl tbl2 h
      by_cases hlt : fi < rc
      · simp only [autocorrect_frame_markers, if_pos hlt] at h
        exact ih _ tbl2 h
      · simp only [autocorrect_frame_markers, if_neg hlt] at h
        cases h

lemma frame_returns_markers (ndp : String) (t : TrialData) (det : Pt → List Pt)
    (cam : String) (fi : ℕ) (tbl tbl2 : Table)
    (hret : autocorrect_frame ndp t det cam fi tbl = Except.ok tbl2) :
    tbl2 = autocorrect_markers det cam fi t.parts tbl := by
  unfold autocorrect_frame at hret
  cases hgb : get_bodyparts_from_xma ndp t with
  | error e =>
      simp only [hgb] at hret
      cases hret
  | ok ps =>
      simp only [hgb] at hret
      rw [get_bodyparts_ok_parts ndp t ps hgb] at hret
      exact markers_ok_result det cam fi t.rowCount t.parts tbl tbl2 hret

/-- C1 counterexample: a candidate set of size 1 whose sole centroid lies
at Euclidean distance exactly 1000 from the predicted point is NOT
selected: the loop keeps its initial dist = 1000 because the comparison
on samtools.py line 303 is strict, so the cell stays at the predicted
point.  This refutes the clause that for a candidate set of size 1 the
single candidate is always selected regardless of its distance. -/
theorem c1_single_candidate_at_1000_not_selected :
    distSq ⟨0, 0⟩ ⟨1000, 0⟩ = 1000 ^ 2 ∧
    autocorrect_cell ⟨0, 0⟩ [⟨1000, 0⟩] = ⟨0, 0⟩ ∧
    (⟨1000, 0⟩ : Pt) ≠ ⟨0, 0⟩ := by
  refine ⟨by norm_num [distSq], ?_, by decide⟩
  apply autocorrect_cell_of_none
  have h : distSq ⟨0, 0⟩ ⟨1000, 0⟩ = 1000000 := by norm_num [distSq]
  simp [choose_best, h]

/-- C1 (amended): for every predicted point and non-empty candidate set,
if index j is the first index attaining the minimal Euclidean distance
to the predicted point and that minimal distance is strictly below 1000
pixels (the initial value of dist), then the candidate written back to
the coordinate table is candidate j; in particular ties at exactly equal
distance go to the first candidate in contour-extraction order, and a
size-1 candidate set is selected exactly when its distance is below
1000. -/
theorem c1_selects_first_nearest_within_bound (pred : Pt) (cands : List Pt)
    (j : ℕ) (hj : j < cands.length)
    (hlt : distSq pred (cands.get ⟨j, hj⟩) < 1000000)
    (hmin : ∀ k (hk : k < cands.length),
      distSq pred (cands.get ⟨j, hj⟩) ≤ distSq pred (cands.get ⟨k, hk⟩))
    (hfirst : ∀ k (hk : k < cands.length),
      distSq pred (cands.get ⟨k, hk⟩) = distSq pred (cands.get ⟨j, hj⟩) → j ≤ k) :
    autocorrect_cell pred cands = cands.get ⟨j, hj⟩ := by
  cases hcb : choose_best pred cands 1000000 with
  | none =>
      exact absurd hlt (not_lt.mpr
        (((choose_best_none_iff pred cands 1000000).mp hcb) _ (cands.get_mem j hj)))
  | some j0 =>
      obtain ⟨hlen, hlt0, hmin0, hfirst0⟩ := choose_best_spec pred cands 1000000 j0 hcb
      have hj0j : j0 = j := by
        rcases lt_trichotomy j0 j with hlt1 | heq | hgt
        · have h1 := hmin0 j hj
          have h2 := hmin j0 hlen
          have heqd : distSq pred (cands.get ⟨j0, hlen⟩) =
              distSq pred (cands.get ⟨j, hj⟩) := le_antisymm h1 h2
          have := hfirst j0 hlen heqd
          omega
        · exact heq
        · have h3 := hfirst0 j hj hgt
          have h4 := hmin j0 hlen
          exact absurd (lt_of_le_of_lt h4 h3) (lt_irrefl _)
      subst hj0j
      unfold autocorrect_cell
      rw [best_index_eq, hcb]
      simp only [Int.toNat_natCast, Int.natCast_nonneg, if_true]
      exact getD_of_lt cands pred j0 hj

/-- C1 witness: a single candidate at distance 5 < 1000 is selected. -/
theorem c1_witness : autocorrect_cell ⟨0, 0⟩ [⟨3, 4⟩] = ⟨3, 4⟩ :=
  c1_selects_first_nearest_within_bound ⟨0, 0⟩ [⟨3, 4⟩] 0 (by decide)
    (by norm_num [distSq])
    (fun k hk => by
      have hk0 : k = 0 := Nat.lt_one_iff.mp hk
      subst hk0; exact le_refl _)
    (fun k _ _ => Nat.zero_le k)

/-- C2: if the blob-detection stage returns zero candidates for a marker,
then whenever autocorrect_frame returns, the coordinate table cell of
that marker (for the processed frame and camera, both X and Y) in the
returned table equals its value before the call; the absence of
candidates triggers no error path of its own. -/
theorem c2_empty_candidates_identity (ndp : String) (t : TrialData)
    (det : Pt → List Pt) (cam : String) (fi : ℕ) (tbl tbl2 : Table) (part : String)
    (hnd : t.parts.Nodup) (hmem : part ∈ t.parts)
    (hempty : det (tbl fi part cam) = [])
    (hret : autocorrect_frame ndp t det cam fi tbl = Except.ok tbl2) :
    tbl2 fi part cam = tbl fi part cam := by
  rw [frame_returns_markers ndp t det cam fi tbl tbl2 hret]
  rw [autocorrect_markers_cell det cam fi t.parts tbl part hnd hmem, hempty]
  exact autocorrect_cell_of_none _ _ rfl

/-- C2 witness: on a one-marker trial, a detector returning no candidates
leaves the cell of the returned table at its original value. -/
theorem c2_witness :
    autocorrect_markers (fun _ => []) ("cam1") 0 [("m1")]
      (fun _ _ _ => (⟨1, 2⟩ : Pt)) 0 ("m1") ("cam1") = ⟨1, 2⟩ :=
  c2_empty_candidates_identity ("wd") one_marker_trial (fun _ => []) ("cam1") 0
    (fun _ _ _ => ⟨1, 2⟩)
    (autocorrect_markers (fun _ => []) ("cam1") 0 [("m1")] (fun _ _ _ => ⟨1, 2⟩))
    ("m1") (by simp [one_marker_trial]) (by simp [one_marker_trial]) rfl rfl

/-- C10: the loop initialises dist to 1000, so if every detected centroid
lies at Euclidean distance 1000 or more from the predicted point (that
is, squared distance at least 1000000) then no candidate is selected
and, whenever autocorrect_frame returns, the coordinate table cell is
left unchanged, exactly as in the empty-candidate case. -/
theorem c10_all_candidates_at_least_1000_unchanged (ndp : String) (t : TrialData)
    (det : Pt → List Pt) (cam : String) (fi : ℕ) (tbl tbl2 : Table) (part : String)
    (hnd : t.parts.Nodup) (hmem : part ∈ t.parts)
    (hfar : ∀ c ∈ det (tbl fi part cam), 1000000 ≤ distSq (tbl fi part cam) c)
    (hret : autocorrect_frame ndp t det cam fi tbl = Except.ok tbl2) :
    tbl2 fi part cam = tbl fi part cam := by
  rw [frame_returns_markers ndp t det cam fi tbl tbl2 hret]
  rw [autocorrect_markers_cell det cam fi t.parts tbl part hnd hmem]
  exact autocorrect_cell_of_none _ _
    ((choose_best_none_iff (tbl fi part cam) (det (tbl fi part cam)) 1000000).mpr hfar)

/-- C10 witness: one candidate at distance 2000 is not selected. -/
theorem c10_witness :
    autocorrect_markers (fun _ => [(⟨2000, 0⟩ : Pt)]) ("cam1") 0 [("m1")]
      (fun _ _ _ => (⟨0, 0⟩ : Pt)) 0 ("m1") ("cam1") = ⟨0, 0⟩ :=
  c10_all_candidates_at_least_1000_unchanged ("wd") one_marker_trial
    (fun _ => [(⟨2000, 0⟩ : Pt)]) ("cam1") 0 (fun _ _ _ => ⟨0, 0⟩)
    (autocorrect_markers (fun _ => [(⟨2000, 0⟩ : Pt)]) ("cam1") 0 [("m1")]
      (fun _ _ _ => ⟨0, 0⟩))
    ("m1") (by simp [one_marker_trial]) (by simp [one_marker_trial])
    (by
      intro c hc
      simp only [List.mem_singleton] at hc
      subst hc
      norm_num [distSq])
    rfl

lemma pyIntTrunc_of_nonneg (q : ℚ) (h : 0 ≤ q) : pyIntTrunc q = ⌊q⌋ := if_pos h

lemma pyIntTrunc_of_neg (q : ℚ) (h : q < 0) : pyIntTrunc q = ⌈q⌉ :=
  if_neg (not_le.mpr h)

/-- C3 counterexample: search_area = 15 (at least 10), predicted
coordinate 50 in each axis, window [35, 65) nowhere near the edges of a
480-pixel frame: x_end - x_start is 2*search_area = 30, not
2*search_area + 1 = 31. -/
theorem c3_counterexample :
    (crop_window 50 50 15).xs = 35 ∧ (crop_window 50 50 15).xe = 65 ∧
    ((65 : ℤ) - 35 ≠ 2 * 15 + 1) := by
  refine ⟨?_, ?_, by decide⟩
  · show pyIntTrunc (50 - 15 + 1/2) = 35
    rw [pyIntTrunc_of_nonneg _ (by norm_num), Int.floor_eq_iff]; norm_num
  · show pyIntTrunc (50 + 15 + 1/2) = 65
    rw [pyIntTrunc_of_nonneg _ (by norm_num), Int.floor_eq_iff]; norm_num

/-- C3 (amended): for an integral search_area of at least 10 (the form
load_project guarantees) and a predicted coordinate whose window is not
clamped at the low frame edge, the computed crop bounds satisfy
end - start = 2*search_area in each axis: the bounds are half-open
Python slice indices, so the crop spans 2*search_area pixels, not
2*search_area + 1. -/
theorem c3_crop_span (x y : ℚ) (sa : ℤ) (hsa : 10 ≤ sa)
    (hx : 0 ≤ x - sa + 1/2) (hy : 0 ≤ y - sa + 1/2) :
    (crop_window x y sa).xe - (crop_window x y sa).xs = 2 * sa ∧
    (crop_window x y sa).ye - (crop_window x y sa).ys = 2 * sa := by
  have hsa0 : (0 : ℚ) ≤ (2 * sa : ℤ) := by
    push_cast
    have : (10 : ℚ) ≤ (sa : ℚ) := by exact_mod_cast hsa
    linarith
  constructor
  · show pyIntTrunc (x + sa + 1/2) - pyIntTrunc (x - sa + 1/2) = 2 * sa
    have hsum : x + (sa : ℚ) + 1/2 = (x - sa + 1/2) + ((2 * sa : ℤ) : ℚ) := by
      push_cast; ring
    rw [pyIntTrunc_of_nonneg _ hx, pyIntTrunc_of_nonneg _ (by rw [hsum]; positivity)]
    rw [hsum, Int.floor_add_int]
    ring
  · show pyIntTrunc (y + sa + 1/2) - pyIntTrunc (y - sa + 1/2) = 2 * sa
    have hsum : y + (sa : ℚ) + 1/2 = (y - sa + 1/2) + ((2 * sa : ℤ) : ℚ) := by
      push_cast; ring
    rw [pyIntTrunc_of_nonneg _ hy, pyIntTrunc_of_nonneg _ (by rw [hsum]; positivity)]
    rw [hsum, Int.floor_add_int]
    ring

/-- C3 witness: the amended span property at x = y = 50, search_area = 15. -/
theorem c3_witness :
    (crop_window 50 50 15).xe - (crop_window 50 50 15).xs = 2 * 15 ∧
    (crop_window 50 50 15).ye - (crop_window 50 50 15).ys = 2 * 15 :=
  c3_crop_span 50 50 15 (by norm_num) (by norm_num) (by norm_num)

/-- C4 counterexample: predicted coordinate 5 with search radius 10 gives
the intermediate value 5 - 10 + 0.5 = -4.5; the code computes
int(-4.5) = -4 (truncation toward zero) whereas the claimed half-up rule
floor(-4.5) gives -5. -/
theorem c4_counterexample :
    (crop_window 5 5 10).xs = -4 ∧ ⌊(5 : ℚ) - 10 + 1/2⌋ = -5 ∧
    ((-4 : ℤ) ≠ -5) := by
  refine ⟨?_, ?_, by decide⟩
  · show pyIntTrunc (5 - 10 + 1/2) = -4
    rw [pyIntTrunc_of_neg _ (by norm_num), Int.ceil_eq_iff]; norm_num
  · rw [Int.floor_eq_iff]; norm_num

/-- C4 (amended): the crop bounds use Python int() truncation toward
zero: for a nonnegative intermediate value this coincides with the
half-up rule floor(value - r + 0.5), but for a negative intermediate
value it is the ceiling, not the floor. -/
theorem c4_rounding_rule (x y sa : ℚ) :
    (0 ≤ x - sa + 1/2 → (crop_window x y sa).xs = ⌊x - sa + 1/2⌋) ∧
    (x - sa + 1/2 < 0 → (crop_window x y sa).xs = ⌈x - sa + 1/2⌉) :=
  ⟨fun h => pyIntTrunc_of_nonneg _ h, fun h => pyIntTrunc_of_neg _ h⟩

/-- C4 witness: both branches of the amended rounding rule at concrete
inputs. -/
theorem c4_witness :
    (crop_window 50 50 15).xs = ⌊(50 : ℚ) - 15 + 1/2⌋ ∧
    (crop_window 5 5 10).xs = ⌈(5 : ℚ) - 10 + 1/2⌉ :=
  ⟨(c4_rounding_rule 50 50 15).1 (by norm_num),
   (c4_rounding_rule 5 5 10).2 (by norm_num)⟩

/-- C5 counterexample: predicted coordinate 10 with search_area 15 gives
the window [-4, 25); on a frame axis of extent 480 the intersection with
the frame holds 25 pixel positions, but the Python slice [-4:25] wraps
the negative start to index 476 and extracts an empty crop — so the crop
is not the intersection — and the empty crop then aborts the filtering
stage with the OpenCV empty-source assertion instead of being treated as
a no-candidate case with the coordinate retained. -/
theorem c5_counterexample :
    (crop_window 10 10 15).xs = -4 ∧ (crop_window 10 10 15).xe = 25 ∧
    py_slice_len 480 (-4) 25 = 0 ∧ inter_len 480 (-4) 25 = 25 ∧
    ((0 : ℕ) ≠ 25) ∧
    filter_image_on_crop (py_slice_len 480 (-4) 25) (py_slice_len 480 (-4) 25) =
      Except.error (AcError.cv2Error cv2_empty_src_msg) := by
  refine ⟨?_, ?_, by decide, by decide, by decide, rfl⟩
  · show pyIntTrunc (10 - 15 + 1/2) = -4
    rw [pyIntTrunc_of_neg _ (by norm_num), Int.ceil_eq_iff]; norm_num
  · show pyIntTrunc (10 + 15 + 1/2) = 25
    rw [pyIntTrunc_of_nonneg _ (by norm_num), Int.floor_eq_iff]; norm_num

/-- C5 (amended): the extracted crop follows the Python slice semantics:
a negative bound first counts from the far edge, then each bound is
clamped to the frame extent; for a window whose bounds are nonnegative
the crop is exactly the intersection of the window with the frame
(possibly empty), but a window with a negative start wraps to the far
edge instead of being intersected.  The source has no empty-crop guard:
an empty crop aborts the filtering stage with the OpenCV empty-source
assertion rather than being treated as no candidate, while a nonempty
(possibly undersized) crop proceeds into the pipeline, and when it
yields no candidates the coordinate is left unchanged. -/
theorem c5_slice_semantics :
    (∀ (n : ℕ) (s e : ℤ), 0 ≤ s → 0 ≤ e → py_slice_len n s e = inter_len n s e) ∧
    (∀ rows cols : ℕ, rows = 0 ∨ cols = 0 →
      filter_image_on_crop rows cols =
        Except.error (AcError.cv2Error cv2_empty_src_msg)) ∧
    (∀ rows cols : ℕ, rows ≠ 0 → cols ≠ 0 →
      filter_image_on_crop rows cols = Except.ok (rows, cols)) ∧
    (∀ pred : Pt, autocorrect_cell pred [] = pred) := by
  refine ⟨?_, ?_, ?_, ?_⟩
  · intro n s e hs he
    unfold py_slice_len py_slice_bound inter_len
    rw [if_neg (not_lt.mpr hs), if_neg (not_lt.mpr he)]
    omega
  · intro rows cols h
    rw [filter_image_on_crop, if_pos h]
  · intro rows cols h1 h2
    rw [filter_image_on_crop, if_neg (not_or.mpr ⟨h1, h2⟩)]
  · intro pred
    exact autocorrect_cell_of_none pred [] rfl

/-- C5 witness: the in-bounds window [35, 65) on a 480-pixel axis spans
30 positions both as a slice and as an intersection; an empty crop stops
the filtering stage while a 30 by 30 crop passes through; an empty
candidate set is a no-op on the point (7, 8). -/
theorem c5_witness :
    py_slice_len 480 35 65 = inter_len 480 35 65 ∧
    filter_image_on_crop 0 30 =
      Except.error (AcError.cv2Error cv2_empty_src_msg) ∧
    filter_image_on_crop 30 30 = Except.ok (30, 30) ∧
    autocorrect_cell ⟨7, 8⟩ [] = ⟨7, 8⟩ :=
  ⟨c5_slice_semantics.1 480 35 65 (by decide) (by decide),
   c5_slice_semantics.2.1 0 30 (Or.inl rfl),
   c5_slice_semantics.2.2.1 30 30 (by decide) (by decide),
   c5_slice_semantics.2.2.2 ⟨7, 8⟩⟩

/-- C6 counterexample: a uniform crop of intensity 100 with threshold
parameter 0 yields thres = 100 exactly; the pixel of value 100 is not
below the threshold, so the claim maps it to 0, but THRESH_BINARY_INV
maps it to foreground 255. -/
theorem c6_counterexample :
    adaptive_thresh 100 100 0 = 100 ∧
    thresh_binary_inv (adaptive_thresh 100 100 0) 100 = 255 ∧
    (255 : ℕ) ≠ 0 := by
  have h : adaptive_thresh 100 100 0 = 100 := by norm_num [adaptive_thresh]
  refine ⟨h, ?_, by decide⟩
  rw [h]
  norm_num [thresh_binary_inv]

/-- C6 (amended): the adaptive threshold equals
0.5*min + 0.5*mean + threshold_param*0.01*255 over the whole crop, and
the inverted binary threshold maps pixels at or below this threshold to
foreground 255 and pixels strictly above it to 0. -/
theorem c6_threshold_mapping (min_val mean_val threshold : ℚ) (pix : ℕ) :
    adaptive_thresh min_val mean_val threshold =
      1/2 * min_val + 1/2 * mean_val + threshold * (1/100) * 255 ∧
    ((pix : ℚ) ≤ adaptive_thresh min_val mean_val threshold →
      thresh_binary_inv (adaptive_thresh min_val mean_val threshold) pix = 255) ∧
    (adaptive_thresh min_val mean_val threshold < (pix : ℚ) →
      thresh_binary_inv (adaptive_thresh min_val mean_val threshold) pix = 0) := by
  refine ⟨rfl, ?_, ?_⟩
  · intro h
    rw [thresh_binary_inv, if_neg (not_lt.mpr h)]
  · intro h
    rw [thresh_binary_inv, if_pos h]

/-- C6 witness: both directions of the amended mapping at min = mean =
100, threshold parameter 0 (thres = 100): pixel 90 maps to 255, pixel
150 maps to 0. -/
theorem c6_witness :
    thresh_binary_inv (adaptive_thresh 100 100 0) 90 = 255 ∧
    thresh_binary_inv (adaptive_thresh 100 100 0) 150 = 0 :=
  ⟨(c6_threshold_mapping 100 100 0 90).2.1 (by norm_num [adaptive_thresh]),
   (c6_threshold_mapping 100 100 0 150).2.2 (by norm_num [adaptive_thresh])⟩

/-- C7: a configured search_area below 10 is replaced by exactly 10;
a configured search_area of 10 or more is rounded half-up to the nearest
integer, int(value + 0.5) = floor(value + 1/2); in both cases the value
used after project loading is at least 10. -/
theorem c7_search_area_normalisation (sa : ℚ) :
    (sa < 10 → load_project_search_area sa = 10) ∧
    (10 ≤ sa → load_project_search_area sa = ⌊sa + 1/2⌋ ∧
      10 ≤ load_project_search_area sa) := by
  constructor
  · intro h
    rw [load_project_search_area, if_neg (not_le.mpr h)]
  · intro h
    have hfloor : load_project_search_area sa = ⌊sa + 1/2⌋ := by
      rw [load_project_search_area, if_pos h]
      exact pyIntTrunc_of_nonneg _ (by linarith)
    refine ⟨hfloor, ?_⟩
    rw [hfloor]
    exact Int.le_floor.mpr (by push_cast; linarith)

/-- C7 witness: a value below the minimum is clamped to 10, and 14.6 is
rounded half-up to 15 (which is at least 10). -/
theorem c7_witness :
    load_project_search_area 5 = 10 ∧ load_project_search_area (73/5) = 15 ∧
    10 ≤ load_project_search_area (73/5) := by
  have h2 := (c7_search_area_normalisation (73/5)).2 (by norm_num)
  refine ⟨(c7_search_area_normalisation 5).1 (by norm_num), ?_, h2.2⟩
  rw [h2.1, Int.floor_eq_iff]; norm_num

/-- C9: the engine is deterministic: two runs on equal inputs (the same
coordinate tables, the same video frame streams and the same
configuration) produce equal outputs.  The embedding is a pure function
of the trial data, reflecting that the source pipeline consumes no
randomness, time or external mutable state. -/
theorem c9_determinism (ndp1 ndp2 : String) (iter1 iter2 : ℕ)
    (trials1 trials2 : List TrialData)
    (h1 : ndp1 = ndp2) (h2 : iter1 = iter2) (h3 : trials1 = trials2) :
    autocorrect_trial ndp1 iter1 trials1 = autocorrect_trial ndp2 iter2 trials2 := by
  subst h1
  subst h2
  subst h3
  rfl

/-- C9 witness: two runs on an identical concrete input agree. -/
theorem c9_witness :
    autocorrect_trial ("wd") 0 [] = autocorrect_trial ("wd") 0 [] :=
  c9_determinism ("wd") ("wd") 0 0 [] [] rfl rfl rfl
